import Mathlib

/-!
Formal model of the "Call Sentinel" vishing-detector scoring pipeline
(`app.py`): transcription-failure handling, keyword scoring, the two
acoustic heuristics, and the final weighted threat score.

Modelling conventions: transcript text is `List Char` and Python's
`str.lower` is `Char.toLower` mapped over it; Python's substring test
`word in text` is `word <:+: text` (contiguous-sublist containment);
Python floats are exact rationals (`ℚ`) and Python ints are `ℕ`.
-/

namespace CallSentinel

/-- The fixed scam-phrase lexicon `SCAM_KEYWORDS` from `analyze_keywords`
in `app.py`, in source order. -/
def SCAM_KEYWORDS : List (List Char) :=
  ["gift card".data, "urgent".data, "wire transfer".data,
   "social security".data, "police".data, "arrest".data,
   "verify your account".data, "otp".data, "password".data,
   "refund".data, "amazon".data, "bank account".data]

/-- `analyze_keywords(text)` from `app.py`: lowercase the text, keep the
lexicon phrases that occur in it as substrings (lexicon order), and score
`min(len(detected) * 35, 100)`. -/
def analyze_keywords (text : List Char) : List (List Char) × ℕ :=
  let text_lower := text.map Char.toLower
  let detected := SCAM_KEYWORDS.filter fun word => decide (word <:+: text_lower)
  (detected, min (detected.length * 35) 100)

/-- Outcome of the external speech-recognition backend inside
`transcribe_audio`: recognized text, or one of the three caught exception
kinds (`sr.UnknownValueError`, `sr.RequestError`, any other `Exception`
carrying a detail string). -/
inductive TranscribeOutcome where
  | success (text : List Char)
  | unknownValue
  | requestFailure
  | otherFailure (detail : List Char)

/-- `transcribe_audio` from `app.py`: returns the recognized text, or on
any failure returns the human-readable error message string itself in
place of a transcript. -/
def transcribe_audio : TranscribeOutcome → List Char
  | .success text => text
  | .unknownValue => "Error: Could not understand audio (Quality too low).".data
  | .requestFailure => "Error: API unavailable.".data
  | .otherFailure detail => "Error processing file: ".data ++ detail

/-- The error message a failed transcription produces (`none` on success). -/
def errorMessage : TranscribeOutcome → Option (List Char)
  | .success _ => none
  | .unknownValue => some (transcribe_audio .unknownValue)
  | .requestFailure => some (transcribe_audio .requestFailure)
  | .otherFailure detail => some (transcribe_audio (.otherFailure detail))

/-- The `fake_prob` accumulation in `analyze_audio_features` of `app.py`:
start at 0, add 20 if `avg_flatness < 0.01`, add 30 if
`silence_ratio > 0.3`.  `flat` is the average spectral flatness and `sil`
the silence ratio, as exact rationals. -/
def fake_prob_of (flat sil : ℚ) : ℕ :=
  let fp : ℕ := 0
  let fp := if flat < 1/100 then fp + 20 else fp
  let fp := if sil > 3/10 then fp + 30 else fp
  fp

/-- Peak absolute amplitude of a waveform (reference level for the
energy threshold of the segmentation). -/
def peakAmp (y : List ℚ) : ℚ := (y.map fun x => |x|).foldr max 0

/-- Modelled from the spec: `librosa.effects.split(y, top_db=20)` is an
external library primitive, not code of this repository.  Per §4.3 the
waveform is partitioned into contiguous active intervals by an energy
threshold — silence is at least 20 dB (an amplitude factor of 10) below
the peak level — so the sum of the active-interval lengths equals the
number of samples above the threshold. -/
def activeLen (y : List ℚ) : ℕ :=
  (y.filter fun x => decide (peakAmp y / 10 < |x|)).length

/-- The silence-ratio computation of `analyze_audio_features`:
`1 - sum(active interval lengths) / len(y)`.  The division is undefined
on an empty waveform (`len(y) = 0`, unguarded in the source), modelled
as `none`. -/
def silenceRatioOf (y : List ℚ) : Option ℚ :=
  if y.length = 0 then none
  else some (1 - (activeLen y : ℚ) / (y.length : ℚ))

/-- `analyze_audio_features` from `app.py`, parameterized over the
external spectral-flatness primitive (`librosa.feature.spectral_flatness`
averaged by `np.mean`), which is outside the repository.  Returns the
pair `(fake_prob, avg_flatness)` as the source does, or `none` when the
silence-ratio division is undefined. -/
def analyze_audio_features (flatnessOf : List ℚ → ℚ) (y : List ℚ) :
    Option (ℕ × ℚ) :=
  match silenceRatioOf y with
  | none => none
  | some sil => some (fake_prob_of (flatnessOf y) sil, flatnessOf y)

/-- `final_score = (text_risk * 0.7) + (fake_prob * 0.3)` from `app.py`,
with the float weights as exact rationals. -/
def final_score (text_risk fake_prob : ℕ) : ℚ :=
  (text_risk : ℚ) * (7/10) + (fake_prob : ℚ) * (3/10)

/-- The threat-banner condition `final_score > 50` from `app.py`. -/
def high_threat (f : ℚ) : Bool := decide (f > 50)

/-- The record the analysis run presents to the UI: the transcript
string, the detected phrases, both partial scores, the blended final
score and the threat classification. -/
structure PipelineResult where
  transcript : List Char
  keywords : List (List Char)
  text_risk : ℕ
  fake_prob : ℕ
  score : ℚ
  threat : Bool

/-- The analysis pipeline of `app.py` (lines 88–105): transcribe (the
returned string — error message or not — is the transcript), run
`analyze_keywords` on it, take the acoustic score, blend with fixed
weights and classify.  The two acoustic statistics are passed in as the
values the external DSP produced for the uploaded file. -/
def run_pipeline (o : TranscribeOutcome) (flat sil : ℚ) : PipelineResult :=
  let transcript := transcribe_audio o
  let kr := analyze_keywords transcript
  let fp := fake_prob_of flat sil
  let fs := final_score kr.2 fp
  ⟨transcript, kr.1, kr.2, fp, fs, high_threat fs⟩


/-- The lexicon has no duplicate phrases. -/
lemma scam_keywords_nodup : SCAM_KEYWORDS.Nodup := by decide

/-- The keyword score never exceeds 100. -/
lemma text_risk_le_100 (t : List Char) : (analyze_keywords t).2 ≤ 100 :=
  Nat.min_le_right _ _

/-- The acoustic score never exceeds 50. -/
lemma fake_prob_le_50 (flat sil : ℚ) : fake_prob_of flat sil ≤ 50 := by
  simp only [fake_prob_of]
  split <;> split <;> simp

/-- Claim C2: for every input text the keyword score equals
`min(35 × |matched set|, 100)` over a duplicate-free matched list, hence
lies in `[0, 100]`, with 0 matches scoring 0, 1 scoring 35, 2 scoring 70
and 3 or more scoring 100. -/
theorem analyze_keywords_score_spec (t : List Char) :
    (analyze_keywords t).1.Nodup
    ∧ (analyze_keywords t).2 = min ((analyze_keywords t).1.length * 35) 100
    ∧ (analyze_keywords t).2 ≤ 100
    ∧ ((analyze_keywords t).1.length = 0 → (analyze_keywords t).2 = 0)
    ∧ ((analyze_keywords t).1.length = 1 → (analyze_keywords t).2 = 35)
    ∧ ((analyze_keywords t).1.length = 2 → (analyze_keywords t).2 = 70)
    ∧ (3 ≤ (analyze_keywords t).1.length → (analyze_keywords t).2 = 100) := by
  refine ⟨?_, rfl, text_risk_le_100 t, ?_, ?_, ?_, ?_⟩
  · show (SCAM_KEYWORDS.filter fun word =>
        decide (word <:+: t.map Char.toLower)).Nodup
    exact scam_keywords_nodup.filter _
  all_goals
    · intro h
      show min ((analyze_keywords t).1.length * 35) 100 = _
      omega

/-- Claim C2 witness: a one-match text scores 35. -/
theorem analyze_keywords_score_spec_witness :
    (analyze_keywords "this is urgent".data).2 = 35 :=
  (analyze_keywords_score_spec "this is urgent".data).2.2.2.2.1 (by decide)

/-- Claim C4: the acoustic score starts at 0, adds 20 exactly when the average
flatness is below 0.01, adds 30 exactly when the silence ratio exceeds
0.3; its only possible values are 0, 20, 30, 50, so it stays in `[0, 50]`
and never reaches 100. -/
theorem fake_prob_spec (flat sil : ℚ) :
    fake_prob_of flat sil
      = (if flat < 1/100 then 20 else 0) + (if sil > 3/10 then 30 else 0)
    ∧ (fake_prob_of flat sil = 0 ∨ fake_prob_of flat sil = 20
        ∨ fake_prob_of flat sil = 30 ∨ fake_prob_of flat sil = 50)
    ∧ fake_prob_of flat sil ≤ 50
    ∧ fake_prob_of flat sil < 100 := by
  refine ⟨?_, ?_, fake_prob_le_50 flat sil, ?_⟩ <;>
    · simp only [fake_prob_of]
      split <;> split <;> simp

/-- Claim C5: the high-threat classification holds exactly when the final score
strictly exceeds 50; a final score of exactly 50 is classified low
threat. -/
theorem high_threat_spec (f : ℚ) :
    (high_threat f = true ↔ 50 < f)
    ∧ (high_threat f = false ↔ f ≤ 50)
    ∧ high_threat (50 : ℚ) = false := by
  refine ⟨decide_eq_true_iff, ?_, by decide⟩
  simp [high_threat, not_lt]

/-- Claim C7: on an empty waveform the silence-ratio division `... / len(y)`
is by zero and the analyzer produces no well-defined result, for every
flatness primitive. -/
theorem empty_waveform_no_result (flatnessOf : List ℚ → ℚ) :
    analyze_audio_features flatnessOf [] = none ∧ silenceRatioOf [] = none :=
  ⟨rfl, rfl⟩

/-- Claim C8: the acoustic analysis is deterministic — it is a pure function of
the waveform (and of the fixed external flatness primitive): identical
waveforms yield the identical silence ratio and the identical
`(fake_prob, avg_flatness)` result. -/
theorem analyze_audio_deterministic (flatnessOf : List ℚ → ℚ)
    (y₁ y₂ : List ℚ) (h : y₁ = y₂) :
    analyze_audio_features flatnessOf y₁ = analyze_audio_features flatnessOf y₂
    ∧ silenceRatioOf y₁ = silenceRatioOf y₂ := by
  rw [h]; exact ⟨rfl, rfl⟩

/-- Claim C8 witness: determinism at a concrete waveform. -/
theorem analyze_audio_deterministic_witness :
    analyze_audio_features (fun _ => 0) [1, 0]
      = analyze_audio_features (fun _ => 0) [1, 0]
    ∧ silenceRatioOf [1, 0] = silenceRatioOf [1, 0] :=
  analyze_audio_deterministic (fun _ => 0) [1, 0] [1, 0] rfl

/-- A duplicate-free list contains each element at most once. -/
lemma count_le_one_of_nodup {α : Type} [BEq α] [LawfulBEq α] {l : List α}
    (h : l.Nodup) (a : α) : l.count a ≤ 1 := by
  induction l with
  | nil => simp
  | cons b l ih =>
      have hbl := List.nodup_cons.mp h
      rw [List.count_cons]
      by_cases hab : a = b
      · subst hab
        have h0 : l.count a = 0 := List.count_eq_zero.mpr hbl.1
        simp [h0]
      · have hf : (b == a) = false := beq_eq_false_iff_ne.mpr (Ne.symm hab)
        have := ih hbl.2
        simp [hf]
        omega

/-- Projection equation: the matched-phrase list of `analyze_keywords`. -/
lemma analyze_keywords_fst (t : List Char) :
    (analyze_keywords t).1
      = SCAM_KEYWORDS.filter fun word => decide (word <:+: t.map Char.toLower) :=
  rfl

/-- Claim C1: the final score is exactly `0.7 * keywordScore + 0.3 * acousticScore`
for the scores the pipeline produces, and it always lies in `[0, 85]`. -/
theorem final_score_spec (t : List Char) (flat sil : ℚ) :
    final_score (analyze_keywords t).2 (fake_prob_of flat sil)
      = ((analyze_keywords t).2 : ℚ) * (7/10)
          + (fake_prob_of flat sil : ℚ) * (3/10)
    ∧ 0 ≤ final_score (analyze_keywords t).2 (fake_prob_of flat sil)
    ∧ final_score (analyze_keywords t).2 (fake_prob_of flat sil) ≤ 85 := by
  have hk : ((analyze_keywords t).2 : ℚ) ≤ 100 := by
    exact_mod_cast text_risk_le_100 t
  have ha : ((fake_prob_of flat sil : ℕ) : ℚ) ≤ 50 := by
    exact_mod_cast fake_prob_le_50 flat sil
  have hk0 : (0 : ℚ) ≤ ((analyze_keywords t).2 : ℚ) := Nat.cast_nonneg _
  have ha0 : (0 : ℚ) ≤ ((fake_prob_of flat sil : ℕ) : ℚ) := Nat.cast_nonneg _
  refine ⟨rfl, ?_, ?_⟩ <;>
    · simp only [final_score]
      nlinarith

/-- Claim C3: matching is case-insensitive substring containment on the
lowercased text, tested independently for each lexicon phrase, each
phrase counted at most once; "URGENT wire Transfer" matches exactly
"urgent" and "wire transfer". -/
theorem keyword_matching_spec :
    (∀ t₁ t₂ : List Char, t₁.map Char.toLower = t₂.map Char.toLower →
        analyze_keywords t₁ = analyze_keywords t₂)
    ∧ (∀ t w : List Char, w ∈ (analyze_keywords t).1 ↔
        w ∈ SCAM_KEYWORDS ∧ w <:+: t.map Char.toLower)
    ∧ (∀ t w : List Char, (analyze_keywords t).1.count w ≤ 1)
    ∧ (analyze_keywords "URGENT wire Transfer".data).1
        = ["urgent".data, "wire transfer".data] := by
  refine ⟨?_, ?_, ?_, by decide⟩
  · intro t₁ t₂ h
    simp only [analyze_keywords, h]
  · intro t w
    simp [analyze_keywords_fst, List.mem_filter]
  · intro t w
    have hnd : (analyze_keywords t).1.Nodup := by
      rw [analyze_keywords_fst]
      exact scam_keywords_nodup.filter _
    exact count_le_one_of_nodup hnd w

/-- Claim C3 witness: case-insensitivity applied at a concrete pair of texts
that agree after lowercasing. -/
theorem keyword_matching_spec_witness :
    analyze_keywords "OTP".data = analyze_keywords "otp".data :=
  keyword_matching_spec.1 "OTP".data "otp".data (by decide)

/-- Claim C6: on any transcription failure the pipeline does not abort: the
error message string itself is what the keyword scorer analyzes and what
is surfaced to the caller as the transcript. -/
theorem error_text_fed_to_scorer (o : TranscribeOutcome) (flat sil : ℚ)
    (msg : List Char) (h : errorMessage o = some msg) :
    (run_pipeline o flat sil).transcript = msg
    ∧ (run_pipeline o flat sil).keywords = (analyze_keywords msg).1
    ∧ (run_pipeline o flat sil).text_risk = (analyze_keywords msg).2 := by
  cases o with
  | success text => simp [errorMessage] at h
  | unknownValue =>
      injection h with h'
      subst h'
      exact ⟨rfl, rfl, rfl⟩
  | requestFailure =>
      injection h with h'
      subst h'
      exact ⟨rfl, rfl, rfl⟩
  | otherFailure detail =>
      injection h with h'
      subst h'
      exact ⟨rfl, rfl, rfl⟩

/-- Claim C6 witness: the unreachable-service failure feeds its message
"Error: API unavailable." to the keyword scorer and surfaces it as the
transcript. -/
theorem error_text_fed_to_scorer_witness :
    (run_pipeline .requestFailure 0 0).transcript = "Error: API unavailable.".data
    ∧ (run_pipeline .requestFailure 0 0).keywords
        = (analyze_keywords "Error: API unavailable.".data).1
    ∧ (run_pipeline .requestFailure 0 0).text_risk
        = (analyze_keywords "Error: API unavailable.".data).2 :=
  error_text_fed_to_scorer .requestFailure 0 0 "Error: API unavailable.".data rfl

/-- A contiguous sublist of a list is a contiguous sublist of that list extended on the right. -/
lemma contiguous_extend {α : Type} {l₁ l₂ l₃ : List α} (h : l₁ <:+: l₂) :
    l₁ <:+: l₂ ++ l₃ := by
  obtain ⟨u, v, rfl⟩ := h
  exact ⟨u, v ++ l₃, by simp⟩

/-- Claim C10: extending the text on the right preserves every match, so the
keyword score never decreases when words are appended. -/
theorem keyword_score_monotone (t s : List Char) :
    (∀ w, w ∈ (analyze_keywords t).1 → w ∈ (analyze_keywords (t ++ s)).1)
    ∧ (analyze_keywords t).2 ≤ (analyze_keywords (t ++ s)).2 := by
  have himp : ∀ w : List Char,
      decide (w <:+: t.map Char.toLower) = true →
      decide (w <:+: (t ++ s).map Char.toLower) = true := by
    intro w hw
    rw [decide_eq_true_iff] at hw ⊢
    rw [List.map_append]
    exact contiguous_extend hw
  constructor
  · intro w hw
    rw [analyze_keywords_fst] at hw ⊢
    have hm := List.mem_filter.mp hw
    exact List.mem_filter.mpr ⟨hm.1, himp w hm.2⟩
  · have hlen : (analyze_keywords t).1.length
        ≤ (analyze_keywords (t ++ s)).1.length := by
      rw [analyze_keywords_fst, analyze_keywords_fst]
      exact (List.monotone_filter_right SCAM_KEYWORDS
        fun a ha => himp a ha).length_le
    show min ((analyze_keywords t).1.length * 35) 100
        ≤ min ((analyze_keywords (t ++ s)).1.length * 35) 100
    omega

/-- Claim C10 witness: appending " otp" to "urgent" keeps the match "urgent"
and does not lower the score. -/
theorem keyword_score_monotone_witness :
    "urgent".data ∈ (analyze_keywords ("urgent".data ++ " otp".data)).1
    ∧ (analyze_keywords "urgent".data).2
        ≤ (analyze_keywords ("urgent".data ++ " otp".data)).2 :=
  ⟨(keyword_score_monotone "urgent".data " otp".data).1 "urgent".data (by decide),
   (keyword_score_monotone "urgent".data " otp".data).2⟩

/-- Claim C9: scenario A — the text "please verify your account and provide
your otp" matches exactly the phrases "verify your account" and "otp"
and scores 70. -/
theorem scenario_A :
    analyze_keywords "please verify your account and provide your otp".data
      = (["verify your account".data, "otp".data], 70) := by decide

end CallSentinel
